import Mathlib

/-!
Verification development for the OPTIMET distributed communication and
data-distribution layer.

The definitions below are shallow embeddings of the C++ sources:
- `src/MpiCommunicator.h` (process group handle, generic broadcast/gather),
- `src/scalapack/Matrix.h` (block-cyclic distributed matrix),
- `src/src/Geometry.cpp` (scatterer geometry, overlap checks).

Machine integers `t_uint`/`t_int` are modelled as `Nat` (all quantities in
the verified paths are small, nonnegative counts); `t_real` as `ℚ` so that
definitions stay executable. Collective MPI operations are modelled
group-wide: a collective call made by every rank of an `n`-process group is
one function from the vector of per-rank inputs to the vector of per-rank
outputs.
-/

namespace Optimet

namespace mpi

/-- Embeds `Communicator::Impl` (src/MpiCommunicator.h lines 34-41): the
data actually associated with an MPI communicator. The native `MPI_Comm`
handle is irrelevant to the verified claims and is not carried. -/
structure Impl where
  size : Nat
  rank : Nat
deriving DecidableEq

/-- Embeds `class Communicator` (src/MpiCommunicator.h lines 32-105): a
shallow handle holding a shared pointer to `Impl`, possibly null. -/
structure Communicator where
  impl : Option Impl
deriving DecidableEq

/-- Embeds `Communicator::size` (line 50): `impl ? impl->size : 1`. -/
def Communicator.size (c : Communicator) : Nat :=
  match c.impl with
  | some i => i.size
  | none => 1

/-- Embeds `Communicator::rank` (line 52): `impl ? impl->rank : 0`. -/
def Communicator.rank (c : Communicator) : Nat :=
  match c.impl with
  | some i => i.rank
  | none => 0

/-- Embeds `Communicator::root_id` (line 91): `static constexpr t_uint
root_id() { return 0; }`. -/
def Communicator.root_id : Nat := 0

/-- Embeds `Communicator::is_root` (line 62): `rank() == root_id()`. -/
def Communicator.is_root (c : Communicator) : Bool :=
  c.rank == Communicator.root_id

/-- Semantics of the external transport primitive `MPI_Bcast` for one value
per rank, at the granularity the spec fixes at the transport boundary:
after the collective, every participant's buffer holds the bytes the root's
buffer held on entry. `bufs i` is rank `i`'s buffer on entry; the result is
the buffers on exit. -/
def MPI_Bcast {T : Type} {n : Nat} (bufs : Fin n → T) (root : Fin n) :
    Fin n → T :=
  fun _ => bufs root

/-- Semantics of the external transport primitive `MPI_Gather` for one value
per rank: the root's receive buffer is overwritten with the `n` sent values
in rank order; every other rank's receive buffer is left untouched.
`sendbufs i` is rank `i`'s sent value, `recvbufs i` its receive buffer on
entry. -/
def MPI_Gather {T : Type} {n : Nat} (sendbufs : Fin n → T)
    (recvbufs : Fin n → List T) (root : Fin n) : Fin n → List T :=
  fun i => if i = root then List.ofFn sendbufs else recvbufs i

/-- Embeds the free function `optimet::mpi::broadcast(T const &, Communicator
const &, t_uint root)` (src/MpiCommunicator.h lines 107-114), run
collectively by every rank of an `n`-process group. `values i` is the
`value` argument rank `i` supplies. Each rank first checks
`assert(root < comm.size())`; `none` models that assertion firing, before
any communication is attempted. Otherwise each rank initialises its local
`result` to its own `value` and the group runs `MPI_Bcast`; the returned
function gives each rank's return value. -/
def broadcastCollective {T : Type} (n : Nat) (values : Fin n → T)
    (root : Nat) : Option (Fin n → T) :=
  if h : root < n then
    some (MPI_Bcast values ⟨root, h⟩)
  else
    none

/-- Embeds the free function `optimet::mpi::gather(T const &, Communicator
const &, t_uint root)` (src/MpiCommunicator.h lines 124-134), run
collectively by every rank of an `n`-process group. `values i` is rank
`i`'s `value`; `dflt` is the value-initialised `T()` filling the freshly
sized `std::vector<T> result(...)`. `none` models the
`assert(root < comm.size())` firing before any communication. Otherwise
each rank sizes `result` to `comm.size()` at the root and `1` elsewhere,
the group runs `MPI_Gather`, and every non-root rank clears its result. -/
def gatherCollective {T : Type} (n : Nat) (dflt : T) (values : Fin n → T)
    (root : Nat) : Option (Fin n → List T) :=
  if h : root < n then
    let result0 : Fin n → List T :=
      fun i => List.replicate (if i.val = root then n else 1) dflt
    let result1 := MPI_Gather values result0 ⟨root, h⟩
    some (fun i => if i.val ≠ root then [] else result1 i)
  else
    none

/-- Embeds the member helper `Communicator::broadcast(T const &)` called with
its defaulted root argument (src/MpiCommunicator.h lines 70-75): it forwards
to `optimet::mpi::broadcast` with `root = Communicator::root_id()`. -/
def broadcastDefaultRoot {T : Type} (n : Nat) (values : Fin n → T) :
    Option (Fin n → T) :=
  broadcastCollective n values Communicator.root_id

/-- Embeds the member helper `Communicator::gather(T const &)` called with
its defaulted root argument (src/MpiCommunicator.h lines 83-88): it forwards
to `optimet::mpi::gather` with `root = Communicator::root_id()`. -/
def gatherDefaultRoot {T : Type} (n : Nat) (dflt : T) (values : Fin n → T) :
    Option (Fin n → List T) :=
  gatherCollective n dflt values Communicator.root_id

end mpi

namespace scalapack

/-- Modelled from the spec: `src/scalapack/Context.h` is not among the
sources. Per spec sections 3 and 4.2, a Process Grid Context carries the
grid row and column counts and this process's `(row, column)` coordinate,
or a sentinel (`none`) marking a process excluded from the grid; `handle`
stands for the native BLACS context identifier that `*context` returns. -/
structure Context where
  gridRows : Nat
  gridCols : Nat
  coord : Option (Nat × Nat)
  handle : Int
deriving DecidableEq

/-- Modelled from the spec: `Context::is_valid()` (declared in the missing
`src/scalapack/Context.h`) reports whether this process participates in the
grid (spec section 4.2). -/
def Context.is_valid (c : Context) : Bool := c.coord.isSome

/-- Modelled from the spec: `Context::size()` (declared in the missing
`src/scalapack/Context.h`) is the number of processes in the grid, i.e.
grid rows times grid columns (spec sections 3 and 4.2: the grid arranges
the first `rows*cols` ranks, and context size comparison picks the context
with more processes). -/
def Context.size (c : Context) : Nat := c.gridRows * c.gridCols

/-- Embeds `Matrix::Sizes` (src/scalapack/Matrix.h lines 17-19). -/
structure Sizes where
  rows : Nat
  cols : Nat
deriving DecidableEq

/-- Embeds `Matrix::Index` (src/scalapack/Matrix.h lines 21-23). -/
structure Index where
  row : Nat
  col : Nat
deriving DecidableEq

/-- Models the underlying Eigen matrix `Matrix::EigenMatrix`: explicit row
and column extents plus an entry function (entries outside the extents are
immaterial). -/
structure EigenMatrix where
  rows : Nat
  cols : Nat
  entry : Nat → Nat → ℚ

/-- Models `EigenMatrix::Zero(rows, cols)`: a block of the given extents
with every entry zero. -/
def EigenMatrix.Zero (r c : Nat) : EigenMatrix :=
  { rows := r, cols := c, entry := fun _ _ => 0 }

/-- Models `EigenMatrix::IsRowMajor`: `optimet::Matrix<Scalar>` is an Eigen
matrix with Eigen's default (column-major) storage order, so the flag is
false. -/
def EigenIsRowMajor : Bool := false

/-- Modelled from the spec: the block-cyclic ownership rule of spec section
4.4 — a process at grid coordinate `coord` (along one dimension of a grid
with `grid` processes in that dimension, anchor coordinate `anchor`) owns
exactly the global indices `g < n` whose block `g / nb` satisfies
`(g / nb + anchor) mod grid = coord`. Listed in increasing global order. -/
def ownedIndices (n nb coord anchor grid : Nat) : List Nat :=
  (List.range n).filter (fun g => (g / nb + anchor) % grid == coord)

/-- Modelled from the spec: the closed-form local extent of spec section
4.4 — the count of owned global indices along one dimension. -/
def localDim (n nb coord anchor grid : Nat) : Nat :=
  (ownedIndices n nb coord anchor grid).length

/-- Modelled from the spec: the static `Matrix::rows(context, size, blocks,
index)` declared at src/scalapack/Matrix.h line 93 but defined in the
missing `Matrix.cpp`. Per spec section 4.4 it is the closed-form count of
global rows owned by this process's grid row; a process excluded from the
grid owns no rows. -/
def localRows (context : Context) (size blocks : Sizes) (index : Index) :
    Nat :=
  match context.coord with
  | none => 0
  | some rc => localDim size.rows blocks.rows rc.1 index.row context.gridRows

/-- Modelled from the spec: the static `Matrix::cols(context, size, blocks,
index)` declared at src/scalapack/Matrix.h line 94 but defined in the
missing `Matrix.cpp`. Per spec section 4.4 it is the closed-form count of
global columns owned by this process's grid column. -/
def localCols (context : Context) (size blocks : Sizes) (index : Index) :
    Nat :=
  match context.coord with
  | none => 0
  | some rc => localDim size.cols blocks.cols rc.2 index.col context.gridCols

/-- Embeds `class Matrix` (src/scalapack/Matrix.h lines 10-95): the
associated context, the 9-entry BLACS descriptor `blacs_`, and the local
Eigen block `matrix_`. -/
structure Matrix where
  context_ : Context
  blacs_ : Fin 9 → Int
  matrix_ : EigenMatrix

/-- Embeds the `Matrix` constructor (src/scalapack/Matrix.h lines 26-34):
fills the descriptor with `{1, is_valid ? *context : -1, size.rows,
size.cols, blocks.rows, blocks.cols, index.row, index.col}`, zero-
initialises the local block with extents given by the static `rows`/`cols`
helpers, then sets `blacs_[8]` to the local leading dimension
(`eigen().rows()` if row-major, else `eigen().cols()`). -/
def Matrix.make (context : Context) (size blocks : Sizes) (index : Index) :
    Matrix :=
  let lrows := localRows context size blocks index
  let lcols := localCols context size blocks index
  { context_ := context
    blacs_ := fun k =>
      match k with
      | 0 => 1
      | 1 => if context.is_valid then context.handle else -1
      | 2 => (size.rows : Int)
      | 3 => (size.cols : Int)
      | 4 => (blocks.rows : Int)
      | 5 => (blocks.cols : Int)
      | 6 => (index.row : Int)
      | 7 => (index.col : Int)
      | 8 => if EigenIsRowMajor then (lrows : Int) else (lcols : Int)
    matrix_ := EigenMatrix.Zero lrows lcols }

/-- Embeds `Matrix::context()` (src/scalapack/Matrix.h line 42). -/
def Matrix.context (m : Matrix) : Context := m.context_

/-- Embeds `Matrix::index()` (src/scalapack/Matrix.h line 68). -/
def Matrix.index (m : Matrix) : Index :=
  { row := (m.blacs_ 6).toNat, col := (m.blacs_ 7).toNat }

/-- Embeds `Matrix::blocks()` (src/scalapack/Matrix.h lines 70-72). -/
def Matrix.blocks (m : Matrix) : Sizes :=
  { rows := (m.blacs_ 4).toNat, cols := (m.blacs_ 5).toNat }

/-- Embeds `Matrix::sizes()` (src/scalapack/Matrix.h line 74). -/
def Matrix.sizes (m : Matrix) : Sizes :=
  { rows := (m.blacs_ 2).toNat, cols := (m.blacs_ 3).toNat }

/-- Embeds `Matrix::rows()` (src/scalapack/Matrix.h line 76):
`blacs()[2]`, the number of rows of the distributed (global) matrix. -/
def Matrix.rows (m : Matrix) : Nat := (m.blacs_ 2).toNat

/-- Embeds `Matrix::cols()` (src/scalapack/Matrix.h line 78):
`blacs()[3]`, the number of columns of the distributed (global) matrix. -/
def Matrix.cols (m : Matrix) : Nat := (m.blacs_ 3).toNat

/-- Embeds `Matrix::size()` (src/scalapack/Matrix.h line 80):
`rows() * cols()`, the number of elements of the global matrix. -/
def Matrix.size (m : Matrix) : Nat := m.rows * m.cols

/-- Embeds `Matrix::local_leading()` (src/scalapack/Matrix.h line 83). -/
def Matrix.local_leading (m : Matrix) : Nat :=
  if EigenIsRowMajor then m.matrix_.rows else m.matrix_.cols

/-- Modelled from the spec: the local block a process holds when a global
content function is laid out block-cyclically (spec section 4.4): local
position `(i, j)` holds global element `(rowsOwned[i], colsOwned[j])`. An
excluded process holds an empty block. -/
def localBlockOf (content : Nat → Nat → ℚ) (size blocks : Sizes)
    (index : Index) (context : Context) : EigenMatrix :=
  match context.coord with
  | none => EigenMatrix.Zero 0 0
  | some rc =>
    let rowsL := ownedIndices size.rows blocks.rows rc.1 index.row
      context.gridRows
    let colsL := ownedIndices size.cols blocks.cols rc.2 index.col
      context.gridCols
    { rows := rowsL.length
      cols := colsL.length
      entry := fun i j => content (rowsL.getD i 0) (colsL.getD j 0) }

/-- Modelled from the spec: `Matrix::transfer_to(Context const &un, Matrix
&other)` (declared const at src/scalapack/Matrix.h line 48, body in the
missing `Matrix.cpp`). Per spec sections 3 and 4.4, redistribution routes
the global content `content` (of which every local block is a restriction)
through the staging grid `un` into `other`'s layout; the `const` qualifier
and the spec's lifecycle rule mean the source is left unmodified.
The result pairs the source's state after the call with `other`'s state
after the call. The staging context `un` determines only how blocks are
routed, never the resulting data, so it does not appear in the output. -/
def Matrix.transfer_to_ctx (m : Matrix) (un : Context) (other : Matrix)
    (content : Nat → Nat → ℚ) : Matrix × Matrix :=
  let _ := un
  (m, { other with
        matrix_ := localBlockOf content other.sizes other.blocks other.index
          other.context_ })

/-- Embeds the staging-context selection of the convenience overload
`Matrix::transfer_to(Matrix &other)` (src/scalapack/Matrix.h lines 50-52):
`context().size() > other.size() ? context() : other.context()`. Note that
`other.size()` here resolves to `Matrix::size()`, the global element count
`rows()*cols()`, not to the process count of `other`'s context. -/
def Matrix.staging_choice (m other : Matrix) : Context :=
  if m.context.size > other.size then m.context else other.context

/-- Embeds the convenience overload `Matrix::transfer_to(Matrix &other)`
(src/scalapack/Matrix.h lines 50-52): forwards to the two-context form with
the staging context chosen by `Matrix.staging_choice`. -/
def Matrix.transfer_to_matrix (m other : Matrix)
    (content : Nat → Nat → ℚ) : Matrix × Matrix :=
  m.transfer_to_ctx (m.staging_choice other) other content

end scalapack

namespace geometry

/-- Embeds the part of `Scatterer` that `Geometry::pushObject` and
`Geometry::is_valid` read (src/src/Geometry.cpp): a position `vR` and a
radius. The position type and the distance function `Tools::findDistance`
live in headers not among the sources, so the position is an abstract type
`α` and the distance is a parameter `dist` of the operations. -/
structure Scatterer (α : Type) where
  vR : α
  radius : ℚ

/-- Embeds the `objects` member of `Geometry` that `pushObject` and
`is_valid` operate on (src/src/Geometry.cpp). -/
structure Geometry (α : Type) where
  objects : List (Scatterer α)

/-- The overlap test of src/src/Geometry.cpp line 41: stored object `obj`
overlaps the new object `o` when
`findDistance(obj.vR, o.vR) <= o.radius + obj.radius`. -/
def overlapsNew {α : Type} (dist : α → α → ℚ) (obj o : Scatterer α) :
    Bool :=
  decide (dist obj.vR o.vR ≤ o.radius + obj.radius)

/-- Embeds `Geometry::pushObject` (src/src/Geometry.cpp lines 39-51): scan
the stored objects in order; on the first one overlapping the new object,
throw (the `throw` happens inside the loop, before `emplace_back`, so the
stored list is untouched); otherwise append the new object at the end.
The result pairs the geometry's state after the call with `true` when the
call threw. -/
def pushObject {α : Type} (dist : α → α → ℚ) (g : Geometry α)
    (o : Scatterer α) : Geometry α × Bool :=
  if g.objects.any (fun obj => overlapsNew dist obj o) then
    (g, true)
  else
    ({ objects := g.objects ++ [o] }, false)

/-- Embeds `Geometry::is_valid` (src/src/Geometry.cpp lines 53-62): false
for an empty object list; otherwise scan all ordered pairs `(i, j)` of
indices — including `i = j` — and return false as soon as
`findDistance(objects[i].vR, objects[j].vR) <= objects[i].radius +
objects[j].radius`; true if no pair trips the test. The test depends only
on the two elements, so the index scan is expressed element-wise. -/
def is_valid {α : Type} (dist : α → α → ℚ) (g : Geometry α) : Bool :=
  if g.objects.length == 0 then
    false
  else
    !(g.objects.any fun a => g.objects.any fun b =>
      decide (dist a.vR b.vR ≤ a.radius + b.radius))

end geometry

end Optimet

open Optimet

/-- Claim C2: for every group size, every assignment of per-rank values and
every root with `root < size`, the collective `broadcast(value, root)`
returns on every member exactly the value the root supplied, and the
placeholder values supplied by non-root callers do not affect the result. -/
theorem claim_C2_broadcast_agreement {T : Type} (n : Nat)
    (values : Fin n → T) (root : Nat) (h : root < n) :
    mpi.broadcastCollective n values root = some (fun _ => values ⟨root, h⟩)
    ∧ ∀ values2 : Fin n → T, values2 ⟨root, h⟩ = values ⟨root, h⟩ →
      mpi.broadcastCollective n values2 root =
        mpi.broadcastCollective n values root := by
  have base : ∀ vs : Fin n → T,
      mpi.broadcastCollective n vs root = some (fun _ => vs ⟨root, h⟩) :=
    fun vs => dif_pos h
  refine ⟨base values, ?_⟩
  intro values2 hv
  rw [base values, base values2, hv]

/-- Witness for claim C2 at a concrete group of two ranks with root 1. -/
theorem claim_C2_broadcast_agreement_witness :
    mpi.broadcastCollective 2 (fun i : Fin 2 => (i.val + 10 : Nat)) 1 =
      some (fun _ => 11) :=
  (claim_C2_broadcast_agreement 2 (fun i : Fin 2 => (i.val + 10 : Nat)) 1
    (by decide)).1

/-- Claim C3: for every group size, per-rank values and root with
`root < size`, the collective `gather(v, root)` hands the root a list of
length exactly `size` whose `i`-th element is the value supplied by rank
`i`, and hands every non-root caller the empty list. -/
theorem claim_C3_gather_ordering {T : Type} (n : Nat) (dflt : T)
    (values : Fin n → T) (root : Nat) (h : root < n) :
    mpi.gatherCollective n dflt values root =
      some (fun i : Fin n => if i.val = root then List.ofFn values else [])
    ∧ (List.ofFn values).length = n
    ∧ ∀ i : Fin n, (List.ofFn values).getD i.val dflt = values i := by
  refine ⟨?_, by simp, ?_⟩
  · simp only [mpi.gatherCollective, mpi.MPI_Gather, h, dif_pos]
    congr 1
    funext i
    by_cases hi : i.val = root
    · have hieq : i = ⟨root, h⟩ := Fin.ext hi
      simp [hi, hieq]
    · have hne : i ≠ ⟨root, h⟩ := by
        intro hc
        exact hi (congrArg Fin.val hc)
      simp [hi, hne]
  · intro i
    have hlt : i.val < (List.ofFn values).length := by
      rw [List.length_ofFn]
      exact i.isLt
    rw [List.getD_eq_getElem _ _ hlt]
    simp

/-- Witness for claim C3 at a concrete group of three ranks with root 0. -/
theorem claim_C3_gather_ordering_witness :
    mpi.gatherCollective 3 0 (fun i : Fin 3 => (i.val * 2 : Nat)) 0 =
      some (fun i : Fin 3 =>
        if i.val = 0 then List.ofFn (fun i : Fin 3 => (i.val * 2 : Nat))
        else []) :=
  (claim_C3_gather_ordering 3 0 (fun i : Fin 3 => (i.val * 2 : Nat)) 0
    (by decide)).1

/-- Claim C4: a communicator handle whose shared `impl` pointer is null
reports rank 0 and size 1, by pure field access with no communication. -/
theorem claim_C4_degenerate_handle :
    (mpi.Communicator.mk none).rank = 0 ∧
      (mpi.Communicator.mk none).size = 1 :=
  ⟨rfl, rfl⟩

/-- Claim C5: calling broadcast or gather with `root ≥ size` trips the
`assert(root < comm.size())` guard before any communication (modelled as
the `none` result, produced without invoking the transport primitive), and
under the precondition `root < size` that assertion branch is unreachable
(the call produces a result). -/
theorem claim_C5_root_assertion {T : Type} (n : Nat) (dflt : T)
    (values : Fin n → T) (root : Nat) :
    (n ≤ root → mpi.broadcastCollective n values root = none ∧
      mpi.gatherCollective n dflt values root = none)
    ∧ (root < n → (mpi.broadcastCollective n values root).isSome = true ∧
      (mpi.gatherCollective n dflt values root).isSome = true) := by
  constructor
  · intro hge
    have hnl : ¬ root < n := Nat.not_lt.mpr hge
    simp [mpi.broadcastCollective, mpi.gatherCollective, hnl]
  · intro h
    simp [mpi.broadcastCollective, mpi.gatherCollective, h]

/-- Witness for claim C5: with one rank, root 3 trips the assertion; with
two ranks, root 1 passes the guard. -/
theorem claim_C5_root_assertion_witness :
    mpi.broadcastCollective 1 (fun _ : Fin 1 => (0 : Nat)) 3 = none ∧
      (mpi.broadcastCollective 2 (fun _ : Fin 2 => (0 : Nat)) 1).isSome =
        true :=
  ⟨((claim_C5_root_assertion 1 0 (fun _ : Fin 1 => (0 : Nat)) 3).1
      (by decide)).1,
   ((claim_C5_root_assertion 2 0 (fun _ : Fin 2 => (0 : Nat)) 1).2
      (by decide)).1⟩

/-- Claim C10: `root_id()` is the constant 0, `is_root()` holds exactly when
`rank() = 0`, and the member broadcast and gather helpers called without an
explicit root argument forward to the free collectives with root 0. -/
theorem claim_C10_root_defaults :
    mpi.Communicator.root_id = 0
    ∧ (∀ c : mpi.Communicator, c.is_root = true ↔ c.rank = 0)
    ∧ (∀ (T : Type) (n : Nat) (values : Fin n → T),
        mpi.broadcastDefaultRoot n values = mpi.broadcastCollective n values 0)
    ∧ (∀ (T : Type) (n : Nat) (dflt : T) (values : Fin n → T),
        mpi.gatherDefaultRoot n dflt values =
          mpi.gatherCollective n dflt values 0) := by
  refine ⟨rfl, ?_, ?_, ?_⟩
  · intro c
    simp [mpi.Communicator.is_root, mpi.Communicator.root_id]
  · intro T n values
    rfl
  · intro T n dflt values
    rfl

/-- Witness for claim C10 at a concrete rank-0 handle of a 4-process
group. -/
theorem claim_C10_root_defaults_witness :
    (mpi.Communicator.mk (some ⟨4, 0⟩)).is_root = true :=
  (claim_C10_root_defaults.2.1 (mpi.Communicator.mk (some ⟨4, 0⟩))).mpr rfl

/-- A source matrix held on a 2-by-2 process grid (4 processes). Used to
exhibit the staging-context selection of the `transfer_to(Matrix&)`
convenience overload. -/
def bugCtxA : scalapack.Context :=
  { gridRows := 2, gridCols := 2, coord := some (0, 0), handle := 0 }

/-- A destination context that is a 1-by-1 process grid (1 process). -/
def bugCtxB : scalapack.Context :=
  { gridRows := 1, gridCols := 1, coord := some (0, 0), handle := 1 }

/-- The source matrix for the staging-selection evaluation: global 8-by-8 on
the 4-process context. -/
def bugMatA : scalapack.Matrix :=
  scalapack.Matrix.make bugCtxA ⟨8, 8⟩ ⟨2, 2⟩ ⟨0, 0⟩

/-- The destination matrix for the staging-selection evaluation: global
2-by-3 (6 elements) on the 1-process context. -/
def bugMatB : scalapack.Matrix :=
  scalapack.Matrix.make bugCtxB ⟨2, 3⟩ ⟨1, 1⟩ ⟨0, 0⟩

/-- Claim C1: the convenience overload `transfer_to(Matrix&)` is specified
to stage on the context with strictly more processes. The code instead
evaluates `context().size() > other.size()`, where `other.size()` is
`Matrix::size()` — the destination's global element count `rows()*cols()`
— not the process count of the destination's context. Evaluated here: the
source context has 4 processes, the destination context 1 process, yet
because the destination matrix has 6 elements the code stages on the
destination's 1-process context rather than the 4-process one. -/
theorem claim_C1_staging_choice_bug :
    bugCtxA.size = 4 ∧ bugCtxB.size = 1 ∧ bugMatB.size = 6 ∧
      bugMatA.staging_choice bugMatB = bugCtxB ∧
      (bugMatA.transfer_to_matrix bugMatB (fun _ _ => 0)).2.context_ =
        bugCtxB := by
  refine ⟨rfl, rfl, by decide, by decide, rfl⟩

/-- Claim C6: constructing a distributed matrix zero-initialises the local
block, the block's extents are given by the closed-form local row and
column counts, and those counts depend only on the global size, block
size, grid shape, this process's coordinate and the anchor coordinate: two
contexts agreeing on grid shape and coordinate yield identical extents. -/
theorem claim_C6_constructor_local_block (context : scalapack.Context)
    (size blocks : scalapack.Sizes) (index : scalapack.Index) :
    (∀ i j,
      (scalapack.Matrix.make context size blocks index).matrix_.entry i j = 0)
    ∧ (scalapack.Matrix.make context size blocks index).matrix_.rows =
        scalapack.localRows context size blocks index
    ∧ (scalapack.Matrix.make context size blocks index).matrix_.cols =
        scalapack.localCols context size blocks index
    ∧ ∀ context2 : scalapack.Context,
        context2.gridRows = context.gridRows →
        context2.gridCols = context.gridCols →
        context2.coord = context.coord →
        scalapack.localRows context2 size blocks index =
            scalapack.localRows context size blocks index ∧
          scalapack.localCols context2 size blocks index =
            scalapack.localCols context size blocks index := by
  refine ⟨fun i j => rfl, rfl, rfl, ?_⟩
  intro context2 hr hc hcoord
  constructor
  · unfold scalapack.localRows
    rw [hcoord, hr]
  · unfold scalapack.localCols
    rw [hcoord, hc]

/-- Witness for claim C6: a concrete 10-by-10 matrix with 2-by-2 blocks on
a 2-by-2 grid; a second context differing only in its native handle yields
the same extents. -/
theorem claim_C6_constructor_local_block_witness :
    (scalapack.Matrix.make ⟨2, 2, some (0, 0), 5⟩ ⟨10, 10⟩ ⟨2, 2⟩
        ⟨0, 0⟩).matrix_.entry 0 0 = 0
    ∧ scalapack.localRows ⟨2, 2, some (0, 0), 7⟩ ⟨10, 10⟩ ⟨2, 2⟩ ⟨0, 0⟩ =
        scalapack.localRows ⟨2, 2, some (0, 0), 5⟩ ⟨10, 10⟩ ⟨2, 2⟩ ⟨0, 0⟩ :=
  ⟨(claim_C6_constructor_local_block ⟨2, 2, some (0, 0), 5⟩ ⟨10, 10⟩ ⟨2, 2⟩
      ⟨0, 0⟩).1 0 0,
   ((claim_C6_constructor_local_block ⟨2, 2, some (0, 0), 5⟩ ⟨10, 10⟩ ⟨2, 2⟩
      ⟨0, 0⟩).2.2.2 ⟨2, 2, some (0, 0), 7⟩ rfl rfl rfl).1⟩

/-- Claim C7: every `transfer_to` redistribution leaves the source matrix
unmodified — its context, every entry of its BLACS descriptor (global
size, block size, anchor index, local leading dimension) and every locally
stored element are unchanged; the same holds through the convenience
overload. -/
theorem claim_C7_transfer_source_frame (m : scalapack.Matrix)
    (un : scalapack.Context) (other : scalapack.Matrix)
    (content : Nat → Nat → ℚ) :
    (m.transfer_to_ctx un other content).1.context_ = m.context_
    ∧ (∀ k : Fin 9, (m.transfer_to_ctx un other content).1.blacs_ k =
        m.blacs_ k)
    ∧ (m.transfer_to_ctx un other content).1.matrix_.rows = m.matrix_.rows
    ∧ (m.transfer_to_ctx un other content).1.matrix_.cols = m.matrix_.cols
    ∧ (∀ i j, (m.transfer_to_ctx un other content).1.matrix_.entry i j =
        m.matrix_.entry i j)
    ∧ (m.transfer_to_matrix other content).1 = m :=
  ⟨rfl, fun _ => rfl, rfl, rfl, fun _ _ => rfl, rfl⟩

/-- Claim C8: `pushObject` throws exactly when the new scatterer's distance
to some stored object is at most the sum of the two radii; a throwing call
leaves the stored list unchanged (the throw precedes the append), and a
non-throwing call appends the new scatterer at the end, preserving all
previously stored objects. -/
theorem claim_C8_pushObject_overlap {α : Type} (dist : α → α → ℚ)
    (g : geometry.Geometry α) (o : geometry.Scatterer α) :
    ((geometry.pushObject dist g o).2 = true ↔
      ∃ obj ∈ g.objects, dist obj.vR o.vR ≤ o.radius + obj.radius)
    ∧ ((geometry.pushObject dist g o).2 = true →
        (geometry.pushObject dist g o).1 = g)
    ∧ ((geometry.pushObject dist g o).2 = false →
        (geometry.pushObject dist g o).1.objects = g.objects ++ [o]) := by
  have hany : (g.objects.any fun obj => geometry.overlapsNew dist obj o) =
        true ↔
      ∃ obj ∈ g.objects, dist obj.vR o.vR ≤ o.radius + obj.radius := by
    simp [List.any_eq_true, geometry.overlapsNew]
  by_cases hc : (g.objects.any fun obj => geometry.overlapsNew dist obj o) =
      true
  · refine ⟨?_, ?_, ?_⟩
    · simp only [geometry.pushObject, hc, if_true]
      exact ⟨fun _ => hany.mp hc, fun _ => trivial⟩
    · intro _
      simp [geometry.pushObject, hc]
    · intro hfalse
      simp [geometry.pushObject, hc] at hfalse
  · refine ⟨?_, ?_, ?_⟩
    · simp only [geometry.pushObject, hc, if_false]
      constructor
      · intro hfalse
        exact absurd hfalse (by simp)
      · intro hex
        exact absurd (hany.mpr hex) hc
    · intro htrue
      simp [geometry.pushObject, hc] at htrue
    · intro _
      simp [geometry.pushObject, hc]

/-- Witness for claim C8: pushing a unit-radius scatterer onto a geometry
already holding one at distance zero throws and leaves the stored list
unchanged. -/
theorem claim_C8_pushObject_overlap_witness :
    (geometry.pushObject (fun _ _ : Unit => (0 : ℚ)) ⟨[⟨(), 1⟩]⟩
        ⟨(), 1⟩).1 = ⟨[⟨(), 1⟩]⟩ :=
  (claim_C8_pushObject_overlap (fun _ _ : Unit => (0 : ℚ)) ⟨[⟨(), 1⟩]⟩
    ⟨(), 1⟩).2.1 (by simp [geometry.pushObject, geometry.overlapsNew])

/-- Claim C9: for a geometry whose objects all have nonnegative radii (with
a distance function vanishing on equal points, as the Euclidean
`findDistance` does), `is_valid()` always returns false: the empty list
returns false directly, and a non-empty list trips the pairwise scan on an
object paired with itself, whose distance 0 is at most the sum of its own
radii. -/
theorem claim_C9_is_valid_always_false {α : Type} (dist : α → α → ℚ)
    (g : geometry.Geometry α)
    (hr : ∀ obj ∈ g.objects, 0 ≤ obj.radius)
    (hd : ∀ x, dist x x = 0) :
    geometry.is_valid dist g = false := by
  cases hobj : g.objects with
  | nil => simp [geometry.is_valid, hobj]
  | cons a tl =>
    have ha : a ∈ g.objects := by
      rw [hobj]
      exact List.mem_cons_self a tl
    have hra : (0 : ℚ) ≤ a.radius := hr a ha
    have hself : dist a.vR a.vR ≤ a.radius + a.radius := by
      rw [hd]
      exact add_nonneg hra hra
    have hany : (g.objects.any fun x => g.objects.any fun y =>
        decide (dist x.vR y.vR ≤ x.radius + y.radius)) = true := by
      rw [List.any_eq_true]
      refine ⟨a, ha, ?_⟩
      rw [List.any_eq_true]
      exact ⟨a, ha, by simp [hself]⟩
    unfold geometry.is_valid
    rw [hobj] at hany
    rw [hobj, hany]
    simp

/-- Witness for claim C9: a geometry holding a single unit-radius scatterer
under the zero distance function is reported invalid. -/
theorem claim_C9_is_valid_always_false_witness :
    geometry.is_valid (fun _ _ : Unit => (0 : ℚ)) ⟨[⟨(), 1⟩]⟩ = false :=
  claim_C9_is_valid_always_false (fun _ _ : Unit => (0 : ℚ)) ⟨[⟨(), 1⟩]⟩
    (by
      intro obj h
      rw [List.mem_singleton] at h
      subst h
      norm_num)
    (fun _ => rfl)
